import Mathlib

/-!
Verification of the changelingRL turn-based core: a shallow embedding of the
AI decision layer (game/components/ai.py), the action layer (game/actions.py),
the engine turn driver and visibility update (game/engine.py), and the
room-acceptance logic of the procedural generator (game/procgen.py), together
with theorems settling the frozen claims about them.

Coordinates are embedded as `Int` pairs, Python lists as Lean `List`s, and the
numpy `int8` cost cells as `Int` with explicit wraparound.  Randomness and the
external tcod pathfinder/FOV are passed in as explicit arguments (draws and
oracle functions), so every definition is executable.
-/

namespace ChangelingRL

/-! ## Visibility planes (Engine.update_fov, game/engine.py lines 171-176)

The `GameMap` class itself lives in game/game_map.py; the two boolean planes
it owns (`visible`, `explored`) and the `game_mode` tag are embedded here as
fields, and `Engine.update_fov` is translated from game/engine.py. -/

structure FloorVis where
  visible : Int × Int → Bool
  explored : Int × Int → Bool
  game_mode : String

/-- Embeds `Engine.update_fov` from game/engine.py: unless the map is in `overview`
mode, overwrite `visible` wholesale with the freshly computed FOV mask, then
OR the (new) visible plane into `explored`.  The FOV mask itself comes from
the external tcod sweep and is passed in as `fov`. -/
def update_fov (fov : Int × Int → Bool) (m : FloorVis) : FloorVis :=
  let vis : Int × Int → Bool :=
    if m.game_mode ≠ "overview" then fov else m.visible
  { m with visible := vis, explored := fun p => m.explored p || vis p }

/-! ## DefaultNPC override resolution (game/components/ai.py lines 140-165) -/

/-- A status effect attached to an actor (game/components/status_effect.py is
not part of the embedded sources; only the `BeingEaten` class tag matters for
the AI, every other status is abstracted by a numeric tag). -/
inductive StatusEff where
  | beingEaten (duration : Nat)
  | otherStatus (tag : Nat)
deriving DecidableEq

def isBeingEatenStatus : StatusEff → Bool
  | .beingEaten _ => true
  | .otherStatus _ => false

/-- The slice of actor/engine state read by `DefaultNPC`'s override
properties: the actor's status list, the engine turn counter and the turn the
actor last relieved itself. -/
structure NPCSt where
  statuses : List StatusEff
  turn_count : Int
  last_peed : Int
deriving DecidableEq

/-- Property `DefaultNPC.is_being_eaten`: any status is an instance of `BeingEaten`. -/
def npc_is_being_eaten (s : NPCSt) : Bool :=
  s.statuses.any isBeingEatenStatus

/-- Property `DefaultNPC.panicking`: hard-wired to `False` in the source. -/
def npc_panicking (_ : NPCSt) : Bool :=
  false

/-- Property `DefaultNPC.has_to_pee`: `engine.turn_count - entity.last_peed > 240`. -/
def npc_has_to_pee (s : NPCSt) : Bool :=
  decide (s.turn_count - s.last_peed > 240)

/-- The transient sub-strategy an override can switch a `DefaultNPC` to. -/
inductive NPCOverride where
  | beingEatenNPC
  | peeNPC
deriving DecidableEq

/-- Property `DefaultNPC.override`: checked in source order — being eaten first, then
the (always-false) panicking hook which returns `None`, then the pee timer;
`none` models Python falling through / returning `None`. -/
def npc_override (s : NPCSt) : Option NPCOverride :=
  if npc_is_being_eaten s then some .beingEatenNPC
  else if npc_panicking s then none
  else if npc_has_to_pee s then some .peeNPC
  else none

/-! ## Cost-grid construction for AI pathing
(BaseAI.get_path_to, game/components/ai.py lines 63-93)

`get_path_to` builds a numpy `int8` cost array from the map's walkable mask,
adds a penalty for blocking entities, and hands the array to
`tcod.path.SimpleGraph(cost=cost, cardinal=3, diagonal=4)`.  The int8 cells
are embedded as `Int` with explicit wraparound, the grid as a function, and
the graph construction is embedded up to its parameters (the search itself is
the external tcod library). -/

/-- Signed 8-bit wraparound, the arithmetic of a numpy `int8` cell. -/
def wrap8 (v : Int) : Int :=
  (v + 128) % 256 - 128

/-- The slice of an entity read by `get_path_to`: position and the
`blocks_movement` flag. -/
structure PathEntity where
  x : Int
  y : Int
  blocks_movement : Bool
deriving DecidableEq

/-- The slice of the game map read by `get_path_to`: the binary walkable mask
`gm.tiles["walkable"]`. -/
structure PathMap where
  walkableTile : Int → Int → Bool

/-- Embeds `cost = np.array(tiles, dtype=np.int8)` where `tiles` is the walkable
mask when `walkable=True`, or `np.full(..., fill_value=1)` otherwise. -/
def baseCost (gm : PathMap) (useWalk : Bool) : Int → Int → Int :=
  fun x y => if useWalk then (if gm.walkableTile x y then 1 else 0) else 1

/-- One iteration of the entity loop in `get_path_to`:
`if entity.blocks_movement and cost[entity.x, entity.y] and
(entity.x != dest_x or entity.y != dest_y): cost[entity.x, entity.y] += path_cost`. -/
def addEntityCost (destX destY pathCost : Int) (cost : Int → Int → Int)
    (e : PathEntity) : Int → Int → Int :=
  if e.blocks_movement = true ∧ cost e.x e.y ≠ 0 ∧ (e.x ≠ destX ∨ e.y ≠ destY)
  then fun x y =>
    if x = e.x ∧ y = e.y then wrap8 (cost x y + pathCost) else cost x y
  else cost

/-- The finished cost grid of `get_path_to`: the base mask folded through the
entity loop (the entity list stands for iterating `gm.entities`). -/
def costGrid (gm : PathMap) (entities : List PathEntity)
    (destX destY pathCost : Int) (useWalk : Bool) : Int → Int → Int :=
  entities.foldl (addEntityCost destX destY pathCost) (baseCost gm useWalk)

/-- The data handed to the external pathfinder:
`tcod.path.SimpleGraph(cost=cost, cardinal=3, diagonal=4)`. -/
structure PathGraph where
  cost : Int → Int → Int
  cardinal : Int
  diagonal : Int

/-- The graph `get_path_to` builds before running the search. -/
def get_path_graph (gm : PathMap) (entities : List PathEntity)
    (destX destY pathCost : Int) (useWalk : Bool) : PathGraph :=
  { cost := costGrid gm entities destX destY pathCost useWalk
    cardinal := 3
    diagonal := 4 }

/-- The effect of one blocking entity on its own cell: add `pc` (with int8
wraparound) unless the cell's running cost is zero. -/
def penalize (pc v : Int) : Int :=
  if v = 0 then v else wrap8 (v + pc)

/-- How many movement-blocking entities of `es` stand on cell `(x, y)`. -/
def countBlockersAt (es : List PathEntity) (x y : Int) : Nat :=
  (es.filter (fun e => e.blocks_movement && (e.x == x) && (e.y == y))).length

/-- Walkable mask for the C1 counterexample: everything walkable except the
single wall cell `(0, 0)`. -/
def cexPathMap : PathMap :=
  ⟨fun x y => !(x == 0 && y == 0)⟩

/-- Walkable mask for the C1 witness: everything walkable except `(9, 9)`. -/
def wGM : PathMap :=
  ⟨fun x y => !(x == 9 && y == 9)⟩

/-- Entities for the C1 witness: a blocker at `(2, 2)`, a non-blocking entity
at `(3, 3)` and a blocker standing on the destination `(5, 5)`. -/
def wES : List PathEntity :=
  [⟨2, 2, true⟩, ⟨3, 3, false⟩, ⟨5, 5, true⟩]

/-! ## The action layer (game/actions.py) and its world state

The map/entity queries the actions use live in game/game_map.py and
game/entity.py, which are not among the embedded sources; they are modelled
from the spec (section 4.2) below.  The actions themselves are translated
from game/actions.py. -/

/-- The slice of an actor read and written by the embedded actions. -/
structure ActorE where
  id : Nat
  x : Int
  y : Int
  blocks_movement : Bool
  is_alive : Bool
  name : String
deriving DecidableEq

/-- The world an action executes against: map bounds, walkable terrain
cells, the entity set, the player reference, the message log and the engine
turn counter. -/
structure WorldA where
  width : Int
  height : Int
  floorTiles : List (Int × Int)
  entities : List ActorE
  playerId : Nat
  messages : List String
  turn_count : Nat
deriving DecidableEq

/-- Modelled from the spec: `GameMap.get_blocking_entity_at_location`
(game/game_map.py is not among the embedded sources) — a first-match query
over the entity set for an entity with `blocks_movement` at `(x, y)`,
returning null if none. -/
def get_blocking_entity_at (w : WorldA) (x y : Int) : Option ActorE :=
  w.entities.find? (fun e => e.blocks_movement && (e.x == x) && (e.y == y))

/-- Modelled from the spec: `GameMap.tile_is_walkable` (game/game_map.py is
not among the embedded sources) — true iff the cell is in bounds, its tile
archetype is walkable, and no movement-blocking entity occupies it. -/
def tile_is_walkable (w : WorldA) (x y : Int) : Bool :=
  decide (0 ≤ x ∧ x < w.width ∧ 0 ≤ y ∧ y < w.height) &&
    w.floorTiles.contains (x, y) &&
    (get_blocking_entity_at w x y).isNone

/-- Look an actor up by its id (the Python action holds the object itself;
the embedding keys the mutable position by id). -/
def getActor (w : WorldA) (i : Nat) : Option ActorE :=
  w.entities.find? (fun e => e.id == i)

/-- Embeds `Entity.move(dx, dy)`: shift the acting entity's position. -/
def moveActor (w : WorldA) (i : Nat) (dx dy : Int) : WorldA :=
  { w with
    entities := w.entities.map (fun e =>
      if e.id == i then { e with x := e.x + dx, y := e.y + dy } else e) }

/-- Embeds `message_log.add_message`: append one rendered line. -/
def addMessage (w : WorldA) (msg : String) : WorldA :=
  { w with messages := w.messages ++ [msg] }

/-- The direction-style actions the AI layer emits (game/actions.py):
Bump, Talk, Movement and Wait, each bound to an acting entity. -/
inductive ActionData where
  | bump (actorId : Nat) (dx dy : Int)
  | talk (actorId : Nat) (dx dy : Int)
  | movement (actorId : Nat) (dx dy : Int)
  | wait (actorId : Nat)
deriving DecidableEq

/-- What `perform()` can do: succeed with a new world (carrying the
action's `meleed` flag), raise `Impossible(reason)`, or escape with a
non-`Impossible` Python fault such as an `AttributeError`. -/
inductive Outcome where
  | ok (w : WorldA) (meleed : Bool)
  | impossible (reason : String)
  | pyFault (desc : String)
deriving DecidableEq

/-- Embeds `TalkAction.perform`: reads the blocking entity at the destination and
formats a greeting with `target.name`; when no entity is there, the
attribute access on `None` escapes as a fault that is not `Impossible`. -/
def talkPerform (w : WorldA) (a : ActorE) (dx dy : Int) : Outcome :=
  match get_blocking_entity_at w (a.x + dx) (a.y + dy) with
  | none => .pyFault "AttributeError: NoneType has no attribute name"
  | some t => .ok (addMessage w ("?: Hello there, " ++ t.name ++ "!")) false

/-- Embeds `MovementAction.perform`: fail with "That way is blocked." unless the
destination is walkable, else move (both branches of the player/non-player
`if` in the source run the same code). -/
def movementPerform (w : WorldA) (a : ActorE) (dx dy : Int) : Outcome :=
  if tile_is_walkable w (a.x + dx) (a.y + dy) then
    .ok (moveActor w a.id dx dy) false
  else .impossible "That way is blocked."

/-- Embeds `BumpAction.perform`: if a blocking entity occupies the destination,
set `meleed` and delegate to `TalkAction.perform`; otherwise delegate to
`MovementAction.perform` with the same direction. -/
def bumpPerform (w : WorldA) (a : ActorE) (dx dy : Int) : Outcome :=
  match get_blocking_entity_at w (a.x + dx) (a.y + dy) with
  | some _ =>
    match talkPerform w a dx dy with
    | .ok w' _ => .ok w' true
    | o => o
  | none => movementPerform w a dx dy

/-- Dispatch an intent action to its `perform()` (the actor is resolved in
the world current at execution time). -/
def performAction (w : WorldA) : ActionData → Outcome
  | .bump i dx dy =>
    match getActor w i with
    | some a => bumpPerform w a dx dy
    | none => .pyFault "missing entity"
  | .talk i dx dy =>
    match getActor w i with
    | some a => talkPerform w a dx dy
    | none => .pyFault "missing entity"
  | .movement i dx dy =>
    match getActor w i with
    | some a => movementPerform w a dx dy
    | none => .pyFault "missing entity"
  | .wait _ => .ok w false

/-- Result of driving one actor's intent: the world after the executed
prefix, the actions actually performed, and whether the loop stopped early
(`Impossible` caught or `meleed` set); a non-`Impossible` fault escapes. -/
inductive RunResult where
  | done (w : WorldA) (executed : List ActionData) (stopped : Bool)
  | fault (desc : String)
deriving DecidableEq

/-- The intent-execution loop of `BaseAI.perform`
(game/components/ai.py lines 54-60): perform each action in order, break on
the first whose `meleed` flag is set after performing, and break swallowing
the exception on the first that raises `Impossible`. -/
def runIntent : List ActionData → WorldA → RunResult
  | [], w => .done w [] false
  | a :: rest, w =>
    match performAction w a with
    | .impossible _ => .done w [a] true
    | .pyFault d => .fault d
    | .ok w' true => .done w' [a] true
    | .ok w' false =>
      match runIntent rest w' with
      | .done w2 ex st => .done w2 (a :: ex) st
      | .fault d => .fault d

/-- Whether performing `a` in `w` stops the intent loop (raises
`Impossible`, or succeeds with `meleed` set). -/
def stopsAtB (w : WorldA) (a : ActionData) : Bool :=
  match performAction w a with
  | .impossible _ => true
  | .ok _ m => m
  | .pyFault _ => false

/-- The world after the stopping action: unchanged when it raised
`Impossible`, the action's result when it performed. -/
def stopState (w : WorldA) (a : ActionData) : WorldA :=
  match performAction w a with
  | .ok w2 _ => w2
  | _ => w

/-- Modelled from the spec: `Actor.is_alive` (game/entity.py is not among
the embedded sources) — the player's alive flag, looked up by id. -/
def aliveIn : List ActorE → Nat → Bool
  | [], _ => false
  | e :: rest, pid => if e.id == pid then e.is_alive else aliveIn rest pid

def player_alive (w : WorldA) : Bool :=
  aliveIn w.entities w.playerId

/-- One non-player actor in the enemy-turn loop: its stable id (the sort
key) and its AI's decided intent as a function of the world at its turn. -/
structure Enemy where
  eid : Nat
  intentOf : WorldA → List ActionData

/-- The per-actor loop of `Engine.handle_enemy_turns` (game/engine.py lines
114-122): each enemy's `ai.perform()` runs inside `try ... except
Impossible: pass` (the intent loop already swallows `Impossible`
internally), the accumulator records who acted, and the loop returns early
when the player is no longer alive; the returned flag says whether the loop
completed. -/
def enemyTurnsGo :
    List Enemy → WorldA → List Nat → Except String (WorldA × List Nat × Bool)
  | [], w, acted => .ok (w, acted, true)
  | e :: rest, w, acted =>
    match runIntent (e.intentOf w) w with
    | .fault d => .error d
    | .done w' _ _ =>
      if player_alive w' then enemyTurnsGo rest w' (acted ++ [e.eid])
      else .ok (w', acted ++ [e.eid], false)

/-- Embeds `Engine.handle_enemy_turns`: run every enemy's turn in order; the
post-turn `turn_count` increment happens only when the loop completed (the
early return on player death skips it). -/
def handle_enemy_turns (es : List Enemy) (w : WorldA) :
    Except String (WorldA × List Nat × Bool) :=
  match enemyTurnsGo es w [] with
  | .ok (w', acted, true) =>
    .ok ({ w' with turn_count := w'.turn_count + 1 }, acted, true)
  | r => r

/-- The ids of the enemies that got to act in this cycle, if it ran to a
game-state result at all. -/
def actedIds (es : List Enemy) (w : WorldA) : Option (List Nat) :=
  match handle_enemy_turns es w with
  | .ok (_, acted, _) => some acted
  | .error _ => none

/-- Whether the full enemy cycle produced a game-state result (no
non-`Impossible` fault escaped). -/
def turnsIsOk (es : List Enemy) (w : WorldA) : Bool :=
  match handle_enemy_turns es w with
  | .ok _ => true
  | .error _ => false

/-! ## DefaultNPC.mosey (game/components/ai.py lines 200-229)

Randomness is passed in as explicit draws (`MoseyRand`), and the path query
`get_path_to` as an oracle function. -/

/-- Modelled from the spec: `DIRECTIONS` (game/render_functions.py is not
among the embedded sources) — the 8 compass directions used for the random
wander step. -/
def DIRECTIONS : List (Int × Int) :=
  [(-1, -1), (0, -1), (1, -1), (-1, 0), (1, 0), (-1, 1), (0, 1), (1, 1)]

/-- Chebyshev distance: `max(abs(dx), abs(dy))`. -/
def chebD (p q : Int × Int) : Nat :=
  max (q.1 - p.1).natAbs (q.2 - p.2).natAbs

/-- Modelled from the spec: `Actor.get_adjacent_actors` (game/entity.py is
not among the embedded sources) — the other actors at Chebyshev distance 1,
the melee/talk range. -/
def get_adjacent_actors (w : WorldA) (a : ActorE) : List ActorE :=
  w.entities.filter (fun e => !(e.id == a.id) && (chebD (a.x, a.y) (e.x, e.y) == 1))

/-- The step loop of `BaseAI.goto`: walk the truncated path, breaking
before the first non-walkable cell, emitting one Bump per consumed step. -/
def gotoBumps (w : WorldA) (aid : Nat) :
    (Int × Int) → List (Int × Int) → List ActionData
  | _, [] => []
  | f, m :: rest =>
    if tile_is_walkable w m.1 m.2 then
      .bump aid (m.1 - f.1) (m.2 - f.2) :: gotoBumps w aid m rest
    else []

/-- The random draws `mosey` consumes, in source order: the
`random.choice(adjacent_actors)` index, the chat roll, the two ambient-muse
rolls, the wander coin flip and the wander direction choice. -/
structure MoseyRand where
  adjChoice : Nat
  chatRoll : Bool
  museRoll1 : Bool
  museRoll2 : Bool
  wanderFlip : Bool
  wanderChoice : Nat
deriving DecidableEq

/-- The tail of `mosey` below the target-tile block: coin-flip between one
random-direction Bump and a Wait, appended after whatever was already
intended. -/
def moseyWander (a : ActorE) (intent : List ActionData) (r : MoseyRand)
    (tt : Option (Int × Int)) : List ActionData × Option (Int × Int) :=
  if r.wanderFlip then
    let d := DIRECTIONS.getD (r.wanderChoice % DIRECTIONS.length) (0, 0)
    (intent ++ [.bump a.id d.1 d.2], tt)
  else (intent ++ [.wait a.id], tt)

/-- Embeds `DefaultNPC.mosey`: chance to bump-chat an adjacent actor (then stop);
else possibly append the ambient self-Talk — constructed with the actor's
absolute coordinates as the direction; then head for the target tile if one
is set (clearing it when already reached), returning when the intent is
non-empty; else wander or wait.  Returns the intent and the new
`target_tile`. -/
def mosey (w : WorldA) (a : ActorE) (tt : Option (Int × Int)) (moveSpeed : Nat)
    (pathTo : Int × Int → List (Int × Int)) (r : MoseyRand) :
    List ActionData × Option (Int × Int) :=
  let adj := get_adjacent_actors w a
  if adj.length > 0 ∧ r.chatRoll = true then
    let t := adj.getD (r.adjChoice % adj.length) a
    ([.bump a.id (t.x - a.x) (t.y - a.y)], tt)
  else
    let i0 : List ActionData :=
      if r.museRoll1 = true ∧ r.museRoll2 = true then [.talk a.id a.x a.y]
      else []
    match tt with
    | some t =>
      if (a.x, a.y) = t then moseyWander a i0 r none
      else
        let i1 := i0 ++ gotoBumps w a.id (a.x, a.y) ((pathTo t).take moveSpeed)
        if i1.length > 0 then (i1, some t) else moseyWander a i1 r (some t)
    | none => moseyWander a i0 r none

/-! ## HostileEnemy (game/components/ai.py lines 369-455)

The tcod pathfinder behind `get_path_to` is the external collaborator; it
enters as the oracle `pathTo`, and the FOV sweep as the mask `fovAt`. -/

/-- The state `HostileEnemy.pick_target`/`decide` read: own position, the
player's position (the only entry of the candidate list), the remembered
last target and the move speed. -/
structure HostileState where
  pos : Int × Int
  playerPos : Int × Int
  lastTarget : Option (Int × Int)
  moveSpeed : Nat
deriving DecidableEq

/-- What `pick_target` returns and updates: whether a live target was
picked (versus a remembered coordinate), the path-length distance, the
resolved destination, the new `last_target`, and whether the one-time
"spotted you" message fired. -/
structure PickResult where
  targetIsPlayer : Bool
  dist : Option Nat
  xy : Option (Int × Int)
  newLast : Option (Int × Int)
  spotted : Bool
deriving DecidableEq

/-- Embeds `HostileEnemy.pick_target`: prefer the player when in FOV and pathable
(distance = path length); else fall back to the remembered coordinate when
pathable; else nothing. -/
def pick_target (st : HostileState) (fovAt : Int × Int → Bool)
    (pathTo : Int × Int → List (Int × Int)) : PickResult :=
  if fovAt st.playerPos = true ∧ (pathTo st.playerPos).length ≠ 0 then
    { targetIsPlayer := true
      dist := some (pathTo st.playerPos).length
      xy := some st.playerPos
      newLast := some st.playerPos
      spotted := st.lastTarget.isNone }
  else
    match st.lastTarget with
    | some lt =>
      if (pathTo lt).length ≠ 0 then
        { targetIsPlayer := false
          dist := some (pathTo lt).length
          xy := some lt
          newLast := some lt
          spotted := false }
      else
        { targetIsPlayer := false, dist := none, xy := none
          newLast := some lt, spotted := false }
    | none =>
      { targetIsPlayer := false, dist := none, xy := none
        newLast := none, spotted := false }

/-- An action of a hostile intent (directions only; the acting entity is
the owner of the AI). -/
inductive HAction where
  | bump (dx dy : Int)
  | wait
deriving DecidableEq

/-- The step loop of `HostileEnemy.decide`: walk the truncated path,
breaking before a non-walkable cell unless that cell is the live target's
own cell. -/
def buildBumps : (Int × Int) → List (Int × Int) → (Int × Int → Bool) →
    Option (Int × Int) → List HAction
  | _, [], _, _ => []
  | f, m :: rest, wk, tgt =>
    if wk m = false ∧ (tgt = none ∨ some m ≠ tgt) then []
    else .bump (m.1 - f.1) (m.2 - f.2) :: buildBumps m rest wk tgt

/-- Embeds `HostileEnemy.decide`: wait when nothing resolved; a single Bump toward
the destination when the picked distance is exactly 1; otherwise up to
`move_speed` Bumps along a fresh path (or wait when none survives). -/
def hostile_decide (st : HostileState) (fovAt : Int × Int → Bool)
    (pathTo : Int × Int → List (Int × Int)) (walkableAt : Int × Int → Bool) :
    List HAction :=
  let pr := pick_target st fovAt pathTo
  match pr.xy with
  | none => [.wait]
  | some q =>
    if pr.dist = some 1 then [.bump (q.1 - st.pos.1) (q.2 - st.pos.2)]
    else
      let path := pathTo q
      if path.length ≠ 0 then
        let intent := buildBumps st.pos (path.take st.moveSpeed) walkableAt
          (if pr.targetIsPlayer then some st.playerPos else none)
        if intent.length > 0 then intent else [.wait]
      else [.wait]

/-! ## TakeStairsAction and the player action driver
(game/actions.py lines 186-199, game/input_handlers.py lines 169-189) -/

/-- The engine/map state `TakeStairsAction.perform` touches: the acting
entity's position, the current floor's downstairs coordinate and number,
the message log, the history log and the turn counter. -/
structure EngineSt where
  actorPos : Int × Int
  downstairs_location : Int × Int
  floorNumber : Nat
  messages : List String
  history : List (String × Nat × Nat)
  turn_count : Nat
deriving DecidableEq

/-- Modelled from the spec: `GameWorld.generate_floor`
(game/game_map.py is not among the embedded sources) — the Generator is
invoked with a new floor number, replacing the floor wholesale. -/
def generate_floor (s : EngineSt) : EngineSt :=
  { s with floorNumber := s.floorNumber + 1 }

/-- Embeds `TakeStairsAction.perform`: at the downstairs coordinate, regenerate
the floor, log the descent message and append the history entry (recording
the new map's floor number); anywhere else raise
`Impossible("There are no stairs here.")` before touching anything.  The
first component is the raised reason, if any; the second the state after
whatever ran before the raise. -/
def takeStairsPerform (s : EngineSt) : Option String × EngineSt :=
  if s.actorPos = s.downstairs_location then
    let s1 := generate_floor s
    let s2 := { s1 with messages := s1.messages ++ ["You descend the staircase."] }
    let s3 := { s2 with
      history := s2.history ++ [("descend stairs", s2.floorNumber, s2.turn_count)] }
    (none, s3)
  else (some "There are no stairs here.", s)

/-- Embeds `EventHandler.handle_action` for the player: catch `Impossible`, report
its reason to the message log and return `False` (no turn advances, enemies
do not move); on success run the enemy cycle (`advanceTurn`, which ends by
incrementing the turn counter) and return `True`. -/
def handle_action_model (act : EngineSt → Option String × EngineSt)
    (advanceTurn : EngineSt → EngineSt) (s : EngineSt) : Bool × EngineSt :=
  match act s with
  | (some reason, s') => (false, { s' with messages := s'.messages ++ [reason] })
  | (none, s') => (true, advanceTurn s')

/-! ## Room acceptance in the dungeon generator (game/procgen.py)

`RectangularRoom`'s randomized growth is abstracted into the stream of
candidate rooms the attempt loop draws; the validity predicate and the
accept/stamp logic of `generate_dungeon_map` are translated from source. -/

/-- The fields of a grown `RectangularRoom` that validity and stamping
read: bounds, primary door, optional second door, and the randomly chosen
target area. -/
structure RoomRect where
  x1 : Int
  x2 : Int
  y1 : Int
  y2 : Int
  doorX : Int
  doorY : Int
  door2 : Option (Int × Int)
  targetArea : Int
deriving DecidableEq

def RoomRect.width (r : RoomRect) : Int := r.x2 - r.x1

def RoomRect.height (r : RoomRect) : Int := r.y2 - r.y1

def RoomRect.area (r : RoomRect) : Int := r.width * r.height

/-- Embeds `RectangularRoom.valid`: no extent under 5, the target area reached,
and the main door not on a corner (not extremal on both axes at once). -/
def RoomRect.valid (r : RoomRect) : Bool :=
  decide (¬(r.width < 5 ∨ r.height < 5) ∧ r.area ≥ r.targetArea ∧
    (¬(r.doorX = r.x1 ∨ r.doorX = r.x2) ∨ ¬(r.doorY = r.y1 ∨ r.doorY = r.y2)))

/-- Embeds `RectangularRoom.has_tile`. -/
def RoomRect.has_tile (r : RoomRect) (t : Int × Int) : Bool :=
  decide (r.x1 ≤ t.1 ∧ r.x2 ≥ t.1 ∧ r.y1 ≤ t.2 ∧ r.y2 ≥ t.2)

/-- Whether `p` lies in `room.inner`, the slice
`[x1+1, x2) × [y1+1, y2)`. -/
def RoomRect.innerHas (r : RoomRect) (p : Int × Int) : Bool :=
  decide (r.x1 + 1 ≤ p.1 ∧ p.1 < r.x2 ∧ r.y1 + 1 ≤ p.2 ∧ p.2 < r.y2)

/-- Stamp one accepted room into the floor mask, following
`generate_dungeon_map`: the first room stamps only its interior (its center
becomes the upstairs); every later room stamps interior, its primary door,
and its second door when that lies inside the room. -/
def stampRoom (isFirst : Bool) (r : RoomRect) (tiles : Int × Int → Bool) :
    Int × Int → Bool :=
  if isFirst then fun p => tiles p || r.innerHas p
  else fun p =>
    tiles p || r.innerHas p || decide (p = (r.doorX, r.doorY)) ||
      (match r.door2 with
       | some d2 => r.has_tile d2 && decide (p = d2)
       | none => false)

/-- Stamp a list of accepted rooms in order; `k` counts the rooms already
accepted before them (the first-room branch fires at `k = 0`). -/
def stampAll : List RoomRect → Nat → (Int × Int → Bool) → Int × Int → Bool
  | [], _, tiles => tiles
  | r :: rest, k, tiles => stampAll rest (k + 1) (stampRoom (k == 0) r tiles)

/-- The attempt loop of `generate_dungeon_map`: while the room target is
not reached and candidates (attempts) remain, draw the next grown candidate
room, skip it unless `valid`, else stamp it and append it. -/
def generate_rooms_loop :
    List RoomRect → Nat → List RoomRect → (Int × Int → Bool) →
      List RoomRect × (Int × Int → Bool)
  | [], _, rooms, tiles => (rooms, tiles)
  | c :: rest, target, rooms, tiles =>
    if rooms.length ≥ target then (rooms, tiles)
    else if c.valid then
      generate_rooms_loop rest target (rooms ++ [c])
        (stampRoom (rooms.length == 0) c tiles)
    else generate_rooms_loop rest target rooms tiles

/-! ## Concrete fixtures used by witnesses and counterexamples -/

/-- Witness world for the action layer: an NPC (id 0) at the origin, a
blocking guard (id 1) east of it, the player (id 9) far away and alive. -/
def wC2 : WorldA :=
  { width := 10, height := 10
    floorTiles := [(0, 0), (1, 0), (0, 1), (2, 0)]
    entities :=
      [⟨0, 0, 0, true, true, "npc"⟩, ⟨1, 1, 0, true, true, "guard"⟩,
       ⟨9, 5, 5, true, true, "player"⟩]
    playerId := 9
    messages := []
    turn_count := 0 }

/-- The acting NPC of `wC2`. -/
def aC2 : ActorE := ⟨0, 0, 0, true, true, "npc"⟩

/-- The guard of `wC2`. -/
def gC2 : ActorE := ⟨1, 1, 0, true, true, "guard"⟩

/-- Witness world for the intent loop: a lone walker (id 0) on a two-cell
strip, with the player (id 9) elsewhere and alive. -/
def w3W : WorldA :=
  { width := 10, height := 10
    floorTiles := [(0, 0), (1, 0), (5, 5)]
    entities := [⟨0, 0, 0, true, true, "walker"⟩, ⟨9, 5, 5, true, true, "player"⟩]
    playerId := 9
    messages := []
    turn_count := 0 }

/-- State `w3W` after the first (successful) step east. -/
def w3W1 : WorldA := moveActor w3W 0 1 0

/-- Witness world for the enemy cycle: two enemies and the live player. -/
def wC6 : WorldA :=
  { width := 10, height := 10
    floorTiles := [(0, 0), (1, 0), (3, 3), (3, 4), (5, 5)]
    entities :=
      [⟨1, 0, 0, true, true, "blocked"⟩, ⟨2, 3, 3, true, true, "free"⟩,
       ⟨9, 5, 5, true, true, "player"⟩]
    playerId := 9
    messages := []
    turn_count := 0 }

/-- First witness enemy: its whole intent fails (`Impossible`) at once. -/
def eC6a : Enemy := ⟨1, fun _ => [.movement 1 0 1, .movement 1 0 1]⟩

/-- Second witness enemy: a plain successful step south. -/
def eC6b : Enemy := ⟨2, fun _ => [.movement 2 0 1]⟩

/-- Witness engine state standing exactly on the downstairs. -/
def sC4 : EngineSt := ⟨(3, 3), (3, 3), 1, [], [], 7⟩

/-- Witness engine state one cell off the downstairs. -/
def sC4b : EngineSt := ⟨(2, 3), (3, 3), 1, [], [], 7⟩

/-- Witness hostile state: actor at the origin, player adjacent east. -/
def stC5 : HostileState := ⟨(0, 0), (1, 0), none, 1⟩

/-- Witness path oracle: the only pathable destination is the player's
cell, one step away. -/
def pathC5 : Int × Int → List (Int × Int) :=
  fun d => if d = (1, 0) then [(1, 0)] else []

/-- Witness candidate room that passes `valid`: 6×6, door mid-edge. -/
def cRoomValid : RoomRect := ⟨0, 6, 0, 6, 3, 0, none, 25⟩

/-- Witness candidate room that fails `valid`: only 3 wide. -/
def cRoomBad : RoomRect := ⟨0, 3, 0, 6, 0, 0, none, 9⟩

/-- Witness world for the ambient self-talk: a lone muser at `(1, 2)`. -/
def wC10 : WorldA :=
  { width := 10, height := 10
    floorTiles := [(1, 2)]
    entities := [⟨0, 1, 2, true, true, "muser"⟩, ⟨9, 8, 8, true, true, "player"⟩]
    playerId := 9
    messages := []
    turn_count := 0 }

/-- The muser of `wC10`. -/
def aC10 : ActorE := ⟨0, 1, 2, true, true, "muser"⟩

/-- Witness draws: no chat roll, both muse rolls hit, wander coin tails. -/
def rC10 : MoseyRand := ⟨0, false, true, true, false, 0⟩

/-- Claim C7: for every cell, `explored` is monotonic non-decreasing across
`update_fov`: the update overwrites `visible` wholesale (outside overview
mode) and then ORs it into `explored`, so an explored cell is never reset. -/
theorem update_fov_explored_monotone (m : FloorVis) (fov : Int × Int → Bool)
    (p : Int × Int) (h : m.explored p = true) :
    (update_fov fov m).explored p = true ∧
    (m.game_mode ≠ "overview" → (update_fov fov m).visible = fov) ∧
    ((update_fov fov m).explored p =
      (m.explored p || (update_fov fov m).visible p)) := by
  refine ⟨?_, ?_, ?_⟩
  · simp [update_fov, h]
  · intro hmode
    simp [update_fov, hmode]
  · by_cases hmode : m.game_mode = "overview" <;> simp [update_fov, hmode]

theorem update_fov_explored_monotone_witness :
    (update_fov (fun _ => false)
      ⟨fun _ => true, fun p => decide (p = (2, 3)), "normal"⟩).explored (2, 3)
      = true :=
  (update_fov_explored_monotone
    ⟨fun _ => true, fun p => decide (p = (2, 3)), "normal"⟩
    (fun _ => false) (2, 3) (by decide)).1

/-- Claim C8: whenever a `DefaultNPC` actor currently has a `BeingEaten`
status, override resolution yields the BeingEaten sub-strategy, regardless of
any other override condition (the pee timer) also holding in the same cycle. -/
theorem npc_override_being_eaten_priority (s : NPCSt)
    (h : npc_is_being_eaten s = true) :
    npc_override s = some .beingEatenNPC := by
  simp [npc_override, h]

theorem npc_override_being_eaten_priority_witness :
    npc_has_to_pee ⟨[.otherStatus 0, .beingEaten 3], 300, 0⟩ = true ∧
    npc_override ⟨[.otherStatus 0, .beingEaten 3], 300, 0⟩
      = some .beingEatenNPC :=
  ⟨by decide,
    npc_override_being_eaten_priority ⟨[.otherStatus 0, .beingEaten 3], 300, 0⟩
      (by decide)⟩

theorem addEntityCost_not_here (destX destY pc : Int) (cost : Int → Int → Int)
    (e : PathEntity) (x y : Int)
    (h : ¬(e.blocks_movement = true ∧ e.x = x ∧ e.y = y)) :
    addEntityCost destX destY pc cost e x y = cost x y := by
  unfold addEntityCost
  by_cases hc : e.blocks_movement = true ∧ cost e.x e.y ≠ 0 ∧
      (e.x ≠ destX ∨ e.y ≠ destY)
  · simp only [if_pos hc]
    have hxy : ¬(x = e.x ∧ y = e.y) := by
      rintro ⟨hx, hy⟩
      exact h ⟨hc.1, hx.symm, hy.symm⟩
    simp [hxy]
  · simp [if_neg hc]

theorem addEntityCost_here (destX destY pc : Int) (cost : Int → Int → Int)
    (e : PathEntity) (hb : e.blocks_movement = true)
    (hnd : ¬(e.x = destX ∧ e.y = destY)) :
    addEntityCost destX destY pc cost e e.x e.y = penalize pc (cost e.x e.y) := by
  unfold addEntityCost penalize
  by_cases hz : cost e.x e.y = 0
  · have hc : ¬(e.blocks_movement = true ∧ cost e.x e.y ≠ 0 ∧
        (e.x ≠ destX ∨ e.y ≠ destY)) := by
      rintro ⟨_, hnz, _⟩
      exact hnz hz
    simp [if_neg hc, hz]
  · have hor : e.x ≠ destX ∨ e.y ≠ destY := by
      by_contra hcon
      push_neg at hcon
      exact hnd ⟨hcon.1, hcon.2⟩
    have hc : e.blocks_movement = true ∧ cost e.x e.y ≠ 0 ∧
        (e.x ≠ destX ∨ e.y ≠ destY) := ⟨hb, hz, hor⟩
    rw [if_pos hc]
    simp [hz]

theorem countBlockersAt_cons_here (e : PathEntity) (rest : List PathEntity)
    (x y : Int) (h : e.blocks_movement = true ∧ e.x = x ∧ e.y = y) :
    countBlockersAt (e :: rest) x y = countBlockersAt rest x y + 1 := by
  simp [countBlockersAt, List.filter_cons, h.1, h.2.1, h.2.2]

theorem countBlockersAt_cons_notHere (e : PathEntity) (rest : List PathEntity)
    (x y : Int) (h : ¬(e.blocks_movement = true ∧ e.x = x ∧ e.y = y)) :
    countBlockersAt (e :: rest) x y = countBlockersAt rest x y := by
  have hp : (e.blocks_movement && (e.x == x) && (e.y == y)) = false := by
    by_contra hcon
    rw [Bool.not_eq_false] at hcon
    simp only [Bool.and_eq_true, beq_iff_eq] at hcon
    exact h ⟨hcon.1.1, hcon.1.2, hcon.2⟩
  simp [countBlockersAt, List.filter_cons, hp]

theorem foldCost_at (destX destY pc : Int) (es : List PathEntity) :
    ∀ (cost : Int → Int → Int) (x y : Int), ¬(x = destX ∧ y = destY) →
      (es.foldl (addEntityCost destX destY pc) cost) x y
        = (penalize pc)^[countBlockersAt es x y] (cost x y) := by
  induction es with
  | nil =>
    intro cost x y _
    simp [countBlockersAt]
  | cons e rest ih =>
    intro cost x y hnd
    simp only [List.foldl_cons]
    by_cases hhere : e.blocks_movement = true ∧ e.x = x ∧ e.y = y
    · obtain ⟨hb, hx, hy⟩ := hhere
      subst hx
      subst hy
      rw [ih _ e.x e.y hnd, countBlockersAt_cons_here e rest e.x e.y ⟨hb, rfl, rfl⟩,
        addEntityCost_here destX destY pc cost e hb hnd,
        Function.iterate_succ_apply]
    · rw [ih _ x y hnd, countBlockersAt_cons_notHere e rest x y hhere,
        addEntityCost_not_here destX destY pc cost e x y hhere]

theorem foldCost_dest (destX destY pc : Int) (es : List PathEntity) :
    ∀ (cost : Int → Int → Int),
      (es.foldl (addEntityCost destX destY pc) cost) destX destY
        = cost destX destY := by
  induction es with
  | nil =>
    intro cost
    simp
  | cons e rest ih =>
    intro cost
    simp only [List.foldl_cons]
    rw [ih]
    unfold addEntityCost
    by_cases hc : e.blocks_movement = true ∧ cost e.x e.y ≠ 0 ∧
        (e.x ≠ destX ∨ e.y ≠ destY)
    · simp only [if_pos hc]
    -- the updated cell is the entity's own cell, which the guard keeps
    -- distinct from the destination
      have hne : ¬(destX = e.x ∧ destY = e.y) := by
        rintro ⟨h1, h2⟩
        rcases hc.2.2 with h | h
        · exact h h1.symm
        · exact h h2.symm
      simp [hne]
    · simp [if_neg hc]

/-- Claim C1 counterexample: a movement-blocking entity standing on a
non-walkable cell (base cost 0) that is not the destination does NOT get the
penalty added to its cell — the loop requires the running cost to be nonzero.
Here the entity stands on the wall `(0, 0)` with destination `(1, 1)`. -/
theorem costGrid_penalty_counterexample :
    ¬(costGrid cexPathMap [⟨0, 0, true⟩] 1 1 10 true 0 0
        = baseCost cexPathMap true 0 0 + 10) := by
  decide

/-- Claim C1 (amended): the cost grid starts from the binary walkable mask
(all-1 when terrain is ignored); scanning the entity list, each
movement-blocking entity whose cell has nonzero running cost and is not the
destination adds the penalty (int8-wrapped) to its own cell — so a cell
`(x, y) ≠ dest` ends at `penalize`/`wrap8` iterated once per blocking entity
standing there, the destination cell keeps its base cost no matter who stands
on it, a zero-cost (non-walkable) cell is never penalized, and the search
graph weighs diagonal steps 4 against cardinal steps 3. -/
theorem costGrid_characterization (gm : PathMap) (es : List PathEntity)
    (destX destY pathCost : Int) (useWalk : Bool) (x y : Int) :
    (get_path_graph gm es destX destY pathCost useWalk).cardinal = 3 ∧
    (get_path_graph gm es destX destY pathCost useWalk).diagonal = 4 ∧
    costGrid gm es destX destY pathCost useWalk destX destY
      = baseCost gm useWalk destX destY ∧
    (¬(x = destX ∧ y = destY) →
      costGrid gm es destX destY pathCost useWalk x y
        = (penalize pathCost)^[countBlockersAt es x y]
            (baseCost gm useWalk x y)) ∧
    (baseCost gm useWalk x y = 0 →
      costGrid gm es destX destY pathCost useWalk x y = 0) ∧
    (useWalk = false → baseCost gm useWalk x y = 1) := by
  refine ⟨rfl, rfl, foldCost_dest destX destY pathCost es _, ?_, ?_, ?_⟩
  · intro hnd
    exact foldCost_at destX destY pathCost es _ x y hnd
  · intro hz
    by_cases hd : x = destX ∧ y = destY
    · obtain ⟨hx, hy⟩ := hd
      subst hx
      subst hy
      have h1 : costGrid gm es x y pathCost useWalk x y
          = baseCost gm useWalk x y :=
        foldCost_dest x y pathCost es _
      rw [h1]
      exact hz
    · have h2 : costGrid gm es destX destY pathCost useWalk x y
          = (penalize pathCost)^[countBlockersAt es x y]
              (baseCost gm useWalk x y) :=
        foldCost_at destX destY pathCost es _ x y hd
      rw [h2, hz]
      exact Function.iterate_fixed (by simp [penalize]) _
  · intro hw
    simp [baseCost, hw]

theorem costGrid_characterization_witness :
    costGrid wGM wES 5 5 10 true 2 2
      = (penalize 10)^[countBlockersAt wES 2 2] (baseCost wGM true 2 2) ∧
    costGrid wGM wES 5 5 10 true 2 2 = 11 ∧
    costGrid wGM wES 5 5 10 true 5 5 = baseCost wGM true 5 5 ∧
    costGrid wGM wES 5 5 10 true 9 9 = 0 :=
  ⟨(costGrid_characterization wGM wES 5 5 10 true 2 2).2.2.2.1 (by decide),
   by decide,
   (costGrid_characterization wGM wES 5 5 10 true 5 5).2.2.1,
   (costGrid_characterization wGM wES 5 5 10 true 9 9).2.2.2.2.1 (by decide)⟩

/-- Claim C2: `BumpAction.perform` checks occupancy at execution time (its
data is only the actor and a direction; `perform` reads the world it is
given): when a blocking entity occupies the destination it resolves to the
talk interaction with the action's `meleed` flag set, and otherwise it
performs a `MovementAction` with the same direction. -/
theorem bump_resolves_at_execution (w : WorldA) (i : Nat) (a : ActorE)
    (dx dy : Int) (ha : getActor w i = some a) :
    (∀ t, get_blocking_entity_at w (a.x + dx) (a.y + dy) = some t →
      performAction w (.bump i dx dy)
        = .ok (addMessage w ("?: Hello there, " ++ t.name ++ "!")) true) ∧
    (get_blocking_entity_at w (a.x + dx) (a.y + dy) = none →
      performAction w (.bump i dx dy) = performAction w (.movement i dx dy) ∧
      performAction w (.bump i dx dy)
        = (if tile_is_walkable w (a.x + dx) (a.y + dy)
           then Outcome.ok (moveActor w a.id dx dy) false
           else Outcome.impossible "That way is blocked.")) := by
  constructor
  · intro t ht
    simp [performAction, ha, bumpPerform, talkPerform, ht]
  · intro hn
    constructor
    · simp [performAction, ha, bumpPerform, hn]
    · simp [performAction, ha, bumpPerform, hn, movementPerform]

theorem bump_resolves_witness :
    performAction wC2 (.bump 0 1 0)
      = .ok (addMessage wC2 ("?: Hello there, " ++ gC2.name ++ "!")) true ∧
    performAction wC2 (.bump 0 0 1) = performAction wC2 (.movement 0 0 1) :=
  ⟨(bump_resolves_at_execution wC2 0 aC2 1 0 (by decide)).1 gC2 (by decide),
   ((bump_resolves_at_execution wC2 0 aC2 0 1 (by decide)).2 (by decide)).1⟩

/-- Claim C3: executing an intent runs its actions in order and stops at
the first that raises `Impossible` (swallowed — the run still yields a
`done` state) or whose `meleed` flag is set after performing; every action
queued after the stopping one is discarded (the result does not depend on
`post`). -/
theorem runIntent_stops_at_first (a : ActionData) (post : List ActionData) :
    ∀ (pre : List ActionData) (w w1 : WorldA),
      runIntent pre w = .done w1 pre false →
      stopsAtB w1 a = true →
      runIntent (pre ++ a :: post) w
        = .done (stopState w1 a) (pre ++ [a]) true := by
  intro pre
  induction pre with
  | nil =>
    intro w w1 hpre hstop
    have hw : w = w1 := by
      simp only [runIntent] at hpre
      injection hpre with h1 h2 h3
    subst hw
    simp only [List.nil_append]
    unfold stopsAtB at hstop
    unfold stopState
    cases hpa : performAction w a with
    | impossible r => simp [runIntent, hpa]
    | pyFault d => rw [hpa] at hstop; simp at hstop
    | ok w2 m =>
      rw [hpa] at hstop
      cases m with
      | true => simp [runIntent, hpa]
      | false => simp at hstop
  | cons b bs ih =>
    intro w w1 hpre hstop
    cases hpb : performAction w b with
    | impossible r =>
      simp [runIntent, hpb] at hpre
    | pyFault d =>
      simp [runIntent, hpb] at hpre
    | ok wb m =>
      cases m with
      | true => simp [runIntent, hpb] at hpre
      | false =>
        cases hrest : runIntent bs wb with
        | fault d => simp [runIntent, hpb, hrest] at hpre
        | done w2 ex st =>
          simp only [runIntent, hpb, hrest] at hpre
          injection hpre with h1 h2 h3
          injection h2 with h2a h2b
          rw [h1, h2b, h3] at hrest
          have hih := ih wb w1 hrest hstop
          simp only [List.cons_append]
          simp [runIntent, hpb, hih]

theorem runIntent_stops_witness :
    runIntent [.movement 0 1 0, .movement 0 1 0, .wait 0] w3W
      = .done w3W1 [.movement 0 1 0, .movement 0 1 0] true :=
  runIntent_stops_at_first (.movement 0 1 0) [.wait 0] [.movement 0 1 0]
    w3W w3W1 (by decide) (by decide)

/-- Claim C4: `TakeStairsAction.perform` succeeds exactly when the acting
entity stands on the downstairs coordinate, in which case the Generator is
invoked for the next floor and the descent is logged; at any other position
it raises `Impossible("There are no stairs here.")` having changed nothing,
and the player's action driver then only reports the reason and returns
`False` — no floor regenerated, no history entry, turn counter untouched. -/
theorem take_stairs_spec (s : EngineSt) (adv : EngineSt → EngineSt) :
    ((takeStairsPerform s).1 = none ↔ s.actorPos = s.downstairs_location) ∧
    (s.actorPos = s.downstairs_location →
      (takeStairsPerform s).2 =
        { s with
          floorNumber := s.floorNumber + 1
          messages := s.messages ++ ["You descend the staircase."]
          history :=
            s.history ++ [("descend stairs", s.floorNumber + 1, s.turn_count)] }) ∧
    (s.actorPos ≠ s.downstairs_location →
      takeStairsPerform s = (some "There are no stairs here.", s) ∧
      handle_action_model takeStairsPerform adv s
        = (false,
          { s with messages := s.messages ++ ["There are no stairs here."] })) := by
  refine ⟨⟨?_, ?_⟩, ?_, ?_⟩
  · intro h
    by_contra hc
    simp [takeStairsPerform, hc] at h
  · intro h
    simp [takeStairsPerform, h]
  · intro h
    simp [takeStairsPerform, h, generate_floor]
  · intro h
    refine ⟨?_, ?_⟩
    · simp [takeStairsPerform, h]
    · simp [handle_action_model, takeStairsPerform, h]

theorem take_stairs_witness :
    (takeStairsPerform sC4).2 =
      { sC4 with
        floorNumber := sC4.floorNumber + 1
        messages := sC4.messages ++ ["You descend the staircase."]
        history :=
          sC4.history ++ [("descend stairs", sC4.floorNumber + 1, sC4.turn_count)] } ∧
    handle_action_model takeStairsPerform id sC4b
      = (false,
        { sC4b with messages := sC4b.messages ++ ["There are no stairs here."] }) :=
  ⟨(take_stairs_spec sC4 id).2.1 (by decide),
   ((take_stairs_spec sC4b id).2.2 (by decide)).2⟩

theorem aliveIn_map_move (i : Nat) (dx dy : Int) :
    ∀ (l : List ActorE) (pid : Nat),
      aliveIn (l.map (fun e =>
        if e.id == i then { e with x := e.x + dx, y := e.y + dy } else e)) pid
        = aliveIn l pid := by
  intro l
  induction l with
  | nil => intro pid; rfl
  | cons e rest ih =>
    intro pid
    simp only [List.map_cons, aliveIn]
    have hid : (if e.id == i then { e with x := e.x + dx, y := e.y + dy }
        else e).id = e.id := by
      split <;> rfl
    have hal : (if e.id == i then { e with x := e.x + dx, y := e.y + dy }
        else e).is_alive = e.is_alive := by
      split <;> rfl
    rw [hid, hal, ih]

theorem player_alive_moveActor (w : WorldA) (i : Nat) (dx dy : Int) :
    player_alive (moveActor w i dx dy) = player_alive w :=
  aliveIn_map_move i dx dy w.entities w.playerId

theorem player_alive_addMessage (w : WorldA) (s : String) :
    player_alive (addMessage w s) = player_alive w :=
  rfl

theorem performAction_preserves_alive (w : WorldA) (a : ActionData)
    (w' : WorldA) (m : Bool) (h : performAction w a = .ok w' m) :
    player_alive w' = player_alive w := by
  cases a with
  | wait i =>
    simp only [performAction] at h
    injection h with h1 h2
    rw [← h1]
  | movement i dx dy =>
    simp only [performAction] at h
    cases hga : getActor w i with
    | none => rw [hga] at h; simp at h
    | some act =>
      rw [hga] at h
      simp only [movementPerform] at h
      by_cases hw : tile_is_walkable w (act.x + dx) (act.y + dy) = true
      · rw [if_pos hw] at h
        injection h with h1 h2
        rw [← h1, player_alive_moveActor]
      · rw [if_neg hw] at h
        simp at h
  | talk i dx dy =>
    simp only [performAction] at h
    cases hga : getActor w i with
    | none => rw [hga] at h; simp at h
    | some act =>
      rw [hga] at h
      simp only [talkPerform] at h
      cases hb : get_blocking_entity_at w (act.x + dx) (act.y + dy) with
      | none => rw [hb] at h; simp at h
      | some t =>
        rw [hb] at h
        injection h with h1 h2
        rw [← h1, player_alive_addMessage]
  | bump i dx dy =>
    simp only [performAction] at h
    cases hga : getActor w i with
    | none => rw [hga] at h; simp at h
    | some act =>
      rw [hga] at h
      simp only [bumpPerform] at h
      cases hb : get_blocking_entity_at w (act.x + dx) (act.y + dy) with
      | some t =>
        rw [hb] at h
        simp only [talkPerform, hb] at h
        injection h with h1 h2
        rw [← h1, player_alive_addMessage]
      | none =>
        rw [hb] at h
        simp only [movementPerform] at h
        by_cases hw : tile_is_walkable w (act.x + dx) (act.y + dy) = true
        · rw [if_pos hw] at h
          injection h with h1 h2
          rw [← h1, player_alive_moveActor]
        · rw [if_neg hw] at h
          simp at h

theorem runIntent_preserves_alive :
    ∀ (l : List ActionData) (w w' : WorldA) (ex : List ActionData) (st : Bool),
      runIntent l w = .done w' ex st → player_alive w' = player_alive w := by
  intro l
  induction l with
  | nil =>
    intro w w' ex st h
    simp only [runIntent] at h
    injection h with h1 h2 h3
    rw [← h1]
  | cons a rest ih =>
    intro w w' ex st h
    cases hpa : performAction w a with
    | impossible r =>
      simp only [runIntent, hpa] at h
      injection h with h1 h2 h3
      rw [← h1]
    | pyFault d => simp [runIntent, hpa] at h
    | ok w2 m =>
      cases m with
      | true =>
        simp only [runIntent, hpa] at h
        injection h with h1 h2 h3
        rw [← h1]
        exact performAction_preserves_alive w a w2 true hpa
      | false =>
        cases hrest : runIntent rest w2 with
        | fault d => simp [runIntent, hpa, hrest] at h
        | done w3 ex3 st3 =>
          simp only [runIntent, hpa, hrest] at h
          injection h with h1 h2 h3
          rw [← h1, ih w2 w3 ex3 st3 hrest]
          exact performAction_preserves_alive w a w2 false hpa

theorem enemyTurnsGo_all_act :
    ∀ (es : List Enemy) (w : WorldA) (acc : List Nat) (w' : WorldA)
      (acted : List Nat) (c : Bool),
      player_alive w = true →
      enemyTurnsGo es w acc = .ok (w', acted, c) →
      acted = acc ++ es.map Enemy.eid := by
  intro es
  induction es with
  | nil =>
    intro w acc w' acted c _ h
    simp only [enemyTurnsGo, Except.ok.injEq, Prod.mk.injEq] at h
    obtain ⟨-, h2, -⟩ := h
    simp [← h2]
  | cons e rest ih =>
    intro w acc w' acted c halive h
    cases hrun : runIntent (e.intentOf w) w with
    | fault d => simp [enemyTurnsGo, hrun] at h
    | done w2 ex st =>
      have halive2 : player_alive w2 = true := by
        rw [runIntent_preserves_alive (e.intentOf w) w w2 ex st hrun]
        exact halive
      simp only [enemyTurnsGo, hrun] at h
      rw [if_pos halive2] at h
      rw [ih w2 (acc ++ [e.eid]) w' acted c halive2 h]
      simp

theorem handle_enemy_turns_acted (es : List Enemy) (w : WorldA)
    (w' : WorldA) (acted : List Nat) (c : Bool)
    (halive : player_alive w = true)
    (h : handle_enemy_turns es w = .ok (w', acted, c)) :
    acted = es.map Enemy.eid := by
  unfold handle_enemy_turns at h
  cases hgo : enemyTurnsGo es w [] with
  | error d =>
    rw [hgo] at h
    simp at h
  | ok p =>
    obtain ⟨w2, acted2, c2⟩ := p
    rw [hgo] at h
    cases c2 with
    | true =>
      simp only [Except.ok.injEq, Prod.mk.injEq] at h
      obtain ⟨-, h2, -⟩ := h
      rw [← h2]
      simpa using enemyTurnsGo_all_act es w [] w2 acted2 true halive hgo
    | false =>
      simp only [Except.ok.injEq, Prod.mk.injEq] at h
      obtain ⟨-, h2, -⟩ := h
      rw [← h2]
      simpa using enemyTurnsGo_all_act es w [] w2 acted2 false halive hgo

/-- Claim C6: within one enemy cycle, an `Impossible` failure in one
actor's intent only short-circuits that actor's own remaining actions
(swallowed inside its run); provided the player stays alive, every enemy in
the cycle still gets its turn — the acted list is exactly the whole roster,
failures notwithstanding. -/
theorem handle_enemy_turns_no_actor_skipped (es : List Enemy) (w : WorldA)
    (halive : player_alive w = true) (hok : turnsIsOk es w = true) :
    actedIds es w = some (es.map Enemy.eid) := by
  unfold turnsIsOk at hok
  unfold actedIds
  cases hh : handle_enemy_turns es w with
  | error d =>
    rw [hh] at hok
    simp at hok
  | ok p =>
    obtain ⟨w2, acted, c⟩ := p
    simp only []
    rw [handle_enemy_turns_acted es w w2 acted c halive hh]

theorem handle_enemy_turns_no_actor_skipped_witness :
    actedIds [eC6a, eC6b] wC6 = some [1, 2] :=
  handle_enemy_turns_no_actor_skipped [eC6a, eC6b] wC6 (by decide) (by decide)

/-- Claim C5: whenever `pick_target` resolves a destination at Chebyshev
distance exactly 1 from the actor — under the pathfinder's contract that a
path to an adjacent destination is either empty or the single direct step —
`decide()` emits exactly one Bump toward it (a one-cell direction), never a
multi-step path. -/
theorem hostile_adjacent_single_bump (st : HostileState)
    (fovAt : Int × Int → Bool) (pathTo : Int × Int → List (Int × Int))
    (walkableAt : Int × Int → Bool) (q : Int × Int)
    (hpath : ∀ d : Int × Int, chebD st.pos d = 1 → pathTo d = [] ∨ pathTo d = [d])
    (hres : (pick_target st fovAt pathTo).xy = some q)
    (hadj : chebD st.pos q = 1) :
    hostile_decide st fovAt pathTo walkableAt
      = [.bump (q.1 - st.pos.1) (q.2 - st.pos.2)] ∧
    (q.1 - st.pos.1).natAbs ≤ 1 ∧ (q.2 - st.pos.2).natAbs ≤ 1 := by
  have hdir1 : (q.1 - st.pos.1).natAbs ≤ 1 := by
    calc (q.1 - st.pos.1).natAbs ≤ chebD st.pos q := le_max_left _ _
      _ = 1 := hadj
  have hdir2 : (q.2 - st.pos.2).natAbs ≤ 1 := by
    calc (q.2 - st.pos.2).natAbs ≤ chebD st.pos q := le_max_right _ _
      _ = 1 := hadj
  refine ⟨?_, hdir1, hdir2⟩
  by_cases h1 : fovAt st.playerPos = true ∧ (pathTo st.playerPos).length ≠ 0
  · have hq : q = st.playerPos := by
      simp [pick_target, h1] at hres
      exact hres.symm
    have hadj' : chebD st.pos st.playerPos = 1 := hq ▸ hadj
    have hpq : pathTo st.playerPos = [st.playerPos] := by
      rcases hpath st.playerPos hadj' with h | h
      · exact absurd (by rw [h]; rfl) h1.2
      · exact h
    rw [hq]
    simp [hostile_decide, pick_target, h1, hpq]
  · have h1' : ¬(fovAt st.playerPos = true ∧ ¬pathTo st.playerPos = []) :=
      fun hcon => h1 ⟨hcon.1, fun hl => hcon.2 (List.length_eq_zero.mp hl)⟩
    cases hlt : st.lastTarget with
    | none => simp [pick_target, h1', hlt] at hres
    | some lt =>
      by_cases h2 : (pathTo lt).length ≠ 0
      · have h2' : ¬(pathTo lt = []) := fun hl => h2 (by rw [hl]; rfl)
        have hq : q = lt := by
          simp [pick_target, h1', hlt, h2'] at hres
          exact hres.symm
        have hadj' : chebD st.pos lt = 1 := hq ▸ hadj
        have hpq : pathTo lt = [lt] := by
          rcases hpath lt hadj' with h | h
          · exact absurd (by rw [h]; rfl) h2
          · exact h
        rw [hq]
        simp [hostile_decide, pick_target, h1', hlt, h2', hpq]
      · have h2' : pathTo lt = [] := List.length_eq_zero.mp (not_not.mp h2)
        simp [pick_target, h1', hlt, h2'] at hres

theorem hostile_adjacent_single_bump_witness :
    hostile_decide stC5 (fun _ => true) pathC5 (fun _ => true) = [.bump 1 0] :=
  (hostile_adjacent_single_bump stC5 (fun _ => true) pathC5 (fun _ => true)
    (1, 0)
    (by
      intro d hd
      by_cases h : d = (1, 0)
      · right
        simp [pathC5, h]
      · left
        simp [pathC5, h])
    (by decide) (by decide)).1

theorem generate_rooms_loop_spec :
    ∀ (cands : List RoomRect) (target : Nat) (rooms0 : List RoomRect)
      (tiles0 : Int × Int → Bool),
      ∃ newRooms : List RoomRect,
        generate_rooms_loop cands target rooms0 tiles0
          = (rooms0 ++ newRooms, stampAll newRooms rooms0.length tiles0) ∧
        ∀ r ∈ newRooms, r.valid = true := by
  intro cands
  induction cands with
  | nil =>
    intro target rooms0 tiles0
    exact ⟨[], by simp [generate_rooms_loop, stampAll], by simp⟩
  | cons c rest ih =>
    intro target rooms0 tiles0
    by_cases hfull : rooms0.length ≥ target
    · exact ⟨[], by simp [generate_rooms_loop, hfull, stampAll], by simp⟩
    · by_cases hv : c.valid = true
      · obtain ⟨nr, heq, hval⟩ := ih target (rooms0 ++ [c])
          (stampRoom (rooms0.length == 0) c tiles0)
        refine ⟨c :: nr, ?_, ?_⟩
        · simp only [generate_rooms_loop]
          rw [if_neg hfull, if_pos hv, heq]
          simp [stampAll, List.append_assoc]
        · intro r hr
          cases List.mem_cons.mp hr with
          | inl h => rw [h]; exact hv
          | inr h => exact hval r h
      · obtain ⟨nr, heq, hval⟩ := ih target rooms0 tiles0
        refine ⟨nr, ?_, hval⟩
        simp only [generate_rooms_loop]
        rw [if_neg hfull, if_neg hv]
        exact heq

/-- Claim C9: every room the generation loop accepts satisfies the
validity predicate (width and height at least 5, target area reached, main
door off the corners), and the floor mask the loop builds is exactly the
initial mask plus the stamps of the accepted rooms — an invalid candidate
is never stamped. -/
theorem rooms_accepted_valid (cands : List RoomRect) (target : Nat)
    (init : Int × Int → Bool) :
    (∀ r, r ∈ (generate_rooms_loop cands target [] init).1 → r.valid = true) ∧
    (generate_rooms_loop cands target [] init).2
      = stampAll (generate_rooms_loop cands target [] init).1 0 init := by
  obtain ⟨nr, heq, hval⟩ := generate_rooms_loop_spec cands target [] init
  rw [heq]
  constructor
  · intro r hr
    simp only [List.nil_append] at hr
    exact hval r hr
  · simp

theorem rooms_accepted_valid_witness :
    cRoomValid ∈ (generate_rooms_loop [cRoomBad, cRoomValid] 2 []
      (fun _ => false)).1 ∧
    cRoomValid.valid = true ∧
    (generate_rooms_loop [cRoomBad, cRoomValid] 2 [] (fun _ => false)).2 (1, 1)
      = stampAll (generate_rooms_loop [cRoomBad, cRoomValid] 2 []
          (fun _ => false)).1 0 (fun _ => false) (1, 1) :=
  ⟨by decide,
   (rooms_accepted_valid [cRoomBad, cRoomValid] 2 (fun _ => false)).1 cRoomValid
     (by decide),
   congrFun (rooms_accepted_valid [cRoomBad, cRoomValid] 2 (fun _ => false)).2
     (1, 1)⟩

/-- Claim C10: the ambient self-talk of `mosey` is constructed with the
actor's absolute coordinates `(x, y)` as the direction, so its destination
is `(2x, 2y)` rather than the actor's own cell; performing any `TalkAction`
whose destination holds no blocking entity escapes with the attribute-access
fault on the missing target, which is not an `Impossible`. -/
theorem ambient_talk_faults (w : WorldA) (a : ActorE) (tt : Option (Int × Int))
    (moveSpeed : Nat) (pathTo : Int × Int → List (Int × Int)) (r : MoseyRand)
    (hnochat : ¬((get_adjacent_actors w a).length > 0 ∧ r.chatRoll = true))
    (hmuse : r.museRoll1 = true ∧ r.museRoll2 = true)
    (ha : getActor w a.id = some a)
    (hempty : get_blocking_entity_at w (2 * a.x) (2 * a.y) = none) :
    (mosey w a tt moveSpeed pathTo r).1.head? = some (.talk a.id a.x a.y) ∧
    performAction w (.talk a.id a.x a.y)
      = .pyFault "AttributeError: NoneType has no attribute name" ∧
    (∀ s, performAction w (.talk a.id a.x a.y) ≠ .impossible s) := by
  have hdest : get_blocking_entity_at w (a.x + a.x) (a.y + a.y) = none := by
    rw [two_mul, two_mul] at hempty
    exact hempty
  have hperf : performAction w (.talk a.id a.x a.y)
      = .pyFault "AttributeError: NoneType has no attribute name" := by
    simp [performAction, ha, talkPerform, hdest]
  refine ⟨?_, hperf, ?_⟩
  · cases tt with
    | none =>
      simp [mosey, hnochat, hmuse, moseyWander]
      by_cases hw : r.wanderFlip = true <;> simp [hw]
    | some t =>
      by_cases hreach : (a.x, a.y) = t
      · simp [mosey, hnochat, hmuse, moseyWander, hreach]
        by_cases hw : r.wanderFlip = true <;> simp [hw]
      · simp [mosey, hnochat, hmuse, hreach]
  · intro s
    rw [hperf]
    simp

theorem ambient_talk_faults_witness :
    (mosey wC10 aC10 none 1 (fun _ => []) rC10).1.head?
      = some (.talk 0 1 2) ∧
    performAction wC10 (.talk 0 1 2)
      = .pyFault "AttributeError: NoneType has no attribute name" :=
  ⟨(ambient_talk_faults wC10 aC10 none 1 (fun _ => []) rC10 (by decide)
      (by decide) (by decide) (by decide)).1,
   (ambient_talk_faults wC10 aC10 none 1 (fun _ => []) rC10 (by decide)
      (by decide) (by decide) (by decide)).2.1⟩

end ChangelingRL
